import Mathlib

/-
Verification of `server/run_engine_multi.py`, a batch orchestrator that
discovers test-data folders, runs an external engine command against each
(optionally staging a copy first), and aggregates outcomes into a report.

The embedding models:
 - the filesystem as finite lists of directory and file paths (a path is a
   list of segments, as produced by `pathlib`-style parsing);
 - effectful primitives (`mkdir -p`, `shutil.rmtree`, `shutil.copytree`,
   subprocess invocation, report writing) as pure state transformers over a
   `World`, together with an explicit trace of `Effect`s;
 - the outside environment (exit codes of the external command, exceptions
   raised by `shutil.copytree`, the wall clock) as an `Oracle` of streams;
 - Python exceptions escaping a function as `Except.error`.
-/

namespace RunEngineMulti

/-- A filesystem path, as a list of path segments. -/
abbrev Path := List String

/-- Split a list of characters at a separator character
(model of the separator handling in `pathlib` path parsing). -/
def splitSeg (sep : Char) : List Char → List Char → List (List Char)
  | [], acc => [acc.reverse]
  | c :: cs, acc =>
    if c = sep then acc.reverse :: splitSeg sep cs []
    else splitSeg sep cs (c :: acc)

/-- The path segments of a Python string: split on `/` and drop empty
segments, as `pathlib.Path` normalization does (so `'trials/'` yields the
single segment `trials`). -/
def segsOf (s : String) : List String :=
  ((splitSeg '/' s.data []).filter (fun l => !l.isEmpty)).map String.mk

/-- Model of `pathlib`'s `/` operator: join a path with a (possibly
multi-segment, possibly trailing-slash) string. -/
def pjoin (p : Path) (s : String) : Path := p ++ segsOf s

/-- Model of `os.path.basename` on a segment-list path. -/
def basename (p : Path) : String := p.getLastD ""

/-- Model of `str.endswith("_original")` (Python strings as char lists). -/
def endsOriginal (s : String) : Bool :=
  List.isSuffixOf "_original".data s.data

/-- Model of `folder_name[:-9]`: drop the last 9 characters. -/
def cleanName (s : String) : String :=
  String.mk (s.data.take (s.data.length - 9))

/-- A snapshot of the filesystem: the existing directories and files. -/
structure FS where
  dirs : List Path
  files : List Path
deriving Repr, DecidableEq

def FS.isDir (fs : FS) (p : Path) : Bool := fs.dirs.contains p

def FS.isFile (fs : FS) (p : Path) : Bool := fs.files.contains p

/-- Model of `os.path.exists` / `Path.exists`. -/
def FS.pathExists (fs : FS) (p : Path) : Bool := fs.isDir p || fs.isFile p

/-- Well-formedness of a filesystem snapshot: every nonempty node has its
parent directory present (so children of a missing or non-directory path do
not exist). -/
def FS.WFb (fs : FS) : Bool :=
  (fs.dirs ++ fs.files).all (fun q => q.isEmpty || fs.dirs.contains q.dropLast)

/-- The nonempty prefixes of a path: the chain of directories that
`mkdir(parents=True)` ensures. -/
def ancestors (p : Path) : List Path :=
  (List.range p.length).map (fun k => p.take (k + 1))

/-- Model of `Path.mkdir(parents=True, exist_ok=True)`: add the missing
ancestors (a no-op on directories that already exist). -/
def FS.mkdirP (fs : FS) (p : Path) : FS :=
  { fs with dirs := fs.dirs ++ ((ancestors p).filter (fun q => !fs.dirs.contains q)) }

/-- Model of `shutil.rmtree`: remove a path and everything below it. -/
def FS.rmtree (fs : FS) (p : Path) : FS :=
  { dirs := fs.dirs.filter (fun q => !List.isPrefixOf p q),
    files := fs.files.filter (fun q => !List.isPrefixOf p q) }

/-- Re-root a path from `src` to `dst` (used by the `copytree` model). -/
def rebase (src dst q : Path) : Path := dst ++ q.drop src.length

/-- Model of the filesystem change of a successful `shutil.copytree src dst`:
the destination (and its missing ancestors, per `os.makedirs`) is created and
the whole subtree below `src` is replicated below `dst`. -/
def FS.copytreeFS (fs : FS) (src dst : Path) : FS :=
  { dirs := fs.dirs ++ ((ancestors dst).filter (fun q => !fs.dirs.contains q))
      ++ (fs.dirs.filter (fun q => List.isPrefixOf src q)).map (rebase src dst),
    files := fs.files ++ (fs.files.filter (fun q => List.isPrefixOf src q)).map (rebase src dst) }

/-- Model of `open(file, 'w')` creating (or overwriting) a file. -/
def FS.writeFile (fs : FS) (p : Path) : FS :=
  { fs with files := if fs.files.contains p then fs.files else fs.files ++ [p] }

/-- The three indicators checked by `is_valid_test_data_folder`. -/
def indicators : List String :=
  ["_subject.json", "unscaled_generic.osim", "trials/"]

/-- `is_valid_test_data_folder`: a folder is a valid test-data folder iff at
least 2 of the 3 indicators exist under it. -/
def is_valid_test_data_folder (fs : FS) (folder_path : Path) : Bool :=
  decide (2 ≤ indicators.countP (fun i => fs.pathExists (pjoin folder_path i)))

/-- The run configuration held by `MultiEngineRunner` (built in `__init__`
from the parsed CLI arguments plus the resolved folder list). -/
structure Config where
  parallel : Bool
  use_docker : Bool
  output_dir : Path
  dry_run : Bool
  continue_on_error : Bool
  docker_image : String
  engine_script : String
  folders : List Path
deriving Repr, DecidableEq

/-- Behavior of one `subprocess.run(cmd, check=True, ...)` call: the external
command exits with a status code (with `check=True` a nonzero status raises
`CalledProcessError`), or the call itself raises some other exception. -/
inductive RunRes where
  | exit (code : Nat) (stdout stderr : String)
  | raise (msg : String)
deriving Repr, DecidableEq

/-- The environment the program cannot control, as streams indexed by how
many calls of each kind have happened so far:
 - `runRes n`: behavior of the n-th `subprocess.run` invocation;
 - `copyRes n`: whether the n-th `shutil.copytree` call raises (it may raise
   `OSError` for permissions, disk space, concurrent modification, ...);
 - `clock n`: the value of the n-th wall-clock reading
   (`time.time()` / `datetime.now()`), modelled as a natural number. -/
structure Oracle where
  runRes : Nat → RunRes
  copyRes : Nat → Option String
  clock : Nat → Nat

/-- Mutable state threaded through a run: the filesystem plus the per-stream
call counters that index into the `Oracle`. -/
structure World where
  fs : FS
  nRun : Nat
  nCopy : Nat
  nTime : Nat
deriving Repr, DecidableEq

/-- Read the wall clock: consume one tick of the clock stream. -/
def getTime (o : Oracle) (w : World) : Nat × World :=
  (o.clock w.nTime, { w with nTime := w.nTime + 1 })

/-- One per-unit result dictionary, as appended to `self.results`
(the `error` field is only ever set by the parallel-mode exception handler). -/
structure ResultEntry where
  folder : String
  success : Bool
  duration : Nat
  timestamp : Nat
  error : Option String
deriving Repr, DecidableEq

/-- The persisted report (`processing_results.json`) built by `save_results`. -/
structure Report where
  total_folders : Nat
  successful : Nat
  failed : Nat
  total_duration : Nat
  cfg_parallel : Bool
  cfg_docker : Bool
  cfg_dry_run : Bool
  cfg_continue_on_error : Bool
  cfg_docker_image : Option String
  results : List ResultEntry
  timestamp : Nat
deriving Repr, DecidableEq

/-- Observable effects of a run, in order: directory creation, staged-copy
removal and creation, external command invocation (the invoked command is
determined by the backend flag, image, engine script and the data path
argument), and report persistence. -/
inductive Effect where
  | mkdirp (p : Path)
  | rmtreeE (p : Path)
  | copytreeE (src dst : Path)
  | runCmd (docker : Bool) (image script : String) (dataPath : Path)
  | saveReport (file : Path) (r : Report)
deriving Repr, DecidableEq

/-- How the process run terminates: fall through normally, `sys.exit(code)`,
or an uncaught Python exception (which makes the interpreter exit with
status 1). -/
inductive Term where
  | normal
  | exited (code : Nat)
  | crashed (msg : String)
deriving Repr, DecidableEq

/-- Model of `os.exit` status of a whole process run. -/
def processExit : Term → Nat
  | Term.normal => 0
  | Term.exited c => c
  | Term.crashed _ => 1

/-- The `try:`-block of `process_folder` (lines 125-165): read the start
time, invoke the engine via `subprocess.run(check=True)`, read the end time;
`CalledProcessError` (nonzero exit) and any other exception are caught and
yield a failure triple. -/
def runEngine (cfg : Config) (o : Oracle) (w : World) (tr : List Effect)
    (folder_name : String) (working : Path) :
    Except String (Bool × String × Nat) × World × List Effect :=
  let (start_time, w1) := getTime o w
  let res := o.runRes w1.nRun
  let w2 : World := { w1 with nRun := w1.nRun + 1 }
  let tr2 := tr ++ [Effect.runCmd cfg.use_docker cfg.docker_image cfg.engine_script working]
  let (end_time, w3) := getTime o w2
  let duration := end_time - start_time
  match res with
  | RunRes.exit code _ _ => (Except.ok ((code == 0), folder_name, duration), w3, tr2)
  | RunRes.raise _ => (Except.ok (false, folder_name, duration), w3, tr2)

/-- `MultiEngineRunner.process_folder`: create the per-unit output directory,
stage a copy when the folder name ends in `_original` (removing a previous
staged copy first), then either short-circuit on dry run (success, duration
0.0) or invoke the engine. `shutil.rmtree`/`shutil.copytree` run outside the
`try:` block, so an exception there escapes as `Except.error`. -/
def process_folder (cfg : Config) (o : Oracle) (w : World) (folder_path : Path) :
    Except String (Bool × String × Nat) × World × List Effect :=
  let folder_name := basename folder_path
  let output_path := cfg.output_dir ++ [folder_name]
  let w1 : World := { w with fs := w.fs.mkdirP output_path }
  let tr1 : List Effect := [Effect.mkdirp output_path]
  if endsOriginal folder_name then
    let clean_name := cleanName folder_name
    let working_folder := output_path ++ [clean_name]
    if cfg.dry_run then
      (Except.ok (true, folder_name, 0), w1, tr1)
    else
      let (w2, tr2) :=
        if w1.fs.pathExists working_folder then
          ({ w1 with fs := w1.fs.rmtree working_folder }, tr1 ++ [Effect.rmtreeE working_folder])
        else (w1, tr1)
      match o.copyRes w2.nCopy with
      | some msg => (Except.error msg, { w2 with nCopy := w2.nCopy + 1 }, tr2)
      | none =>
        if w2.fs.pathExists folder_path then
          runEngine cfg o
            { w2 with fs := w2.fs.copytreeFS folder_path working_folder, nCopy := w2.nCopy + 1 }
            (tr2 ++ [Effect.copytreeE folder_path working_folder]) folder_name working_folder
        else
          (Except.error "FileNotFoundError", { w2 with nCopy := w2.nCopy + 1 }, tr2)
  else
    if cfg.dry_run then
      (Except.ok (true, folder_name, 0), w1, tr1)
    else
      runEngine cfg o w1 tr1 folder_name folder_path

/-- The staging location for a unit: `<outputDir>/<name>/<cleaned name>`. -/
def stagedPath (cfg : Config) (p : Path) : Path :=
  cfg.output_dir ++ [basename p, cleanName (basename p)]

/-- Render a segment-list path back to a display string (used where the
source interpolates the raw path, e.g. the parallel-mode exception entry). -/
def renderPath (p : Path) : String := String.intercalate "/" p

/-- Build one result dictionary: `{'folder': …, 'success': …, 'duration': …,
'timestamp': datetime.now().isoformat()}` (consumes one clock tick for the
timestamp). -/
def mkEntry (o : Oracle) (w : World) (name : String) (success : Bool) (dur : Nat) :
    ResultEntry × World :=
  let (ts, w1) := getTime o w
  ({ folder := name, success := success, duration := dur, timestamp := ts, error := none }, w1)

/-- `MultiEngineRunner.process_folders_sequential`: process folders in order,
appending one result each; on a failed unit with `--continue-on-error` unset,
log and `sys.exit(1)` (the failing unit's result is already appended); an
exception escaping `process_folder` propagates, so nothing more is appended
and the run crashes. -/
def process_folders_sequential (cfg : Config) (o : Oracle) :
    List Path → World → List ResultEntry × World × List Effect × Term
  | [], w => ([], w, [], Term.normal)
  | folder :: rest, w =>
    match process_folder cfg o w folder with
    | (Except.error msg, w1, tr1) => ([], w1, tr1, Term.crashed msg)
    | (Except.ok (success, folder_name, duration), w1, tr1) =>
      let (entry, w2) := mkEntry o w1 folder_name success duration
      if success || cfg.continue_on_error then
        let (rs, w3, tr2, t) := process_folders_sequential cfg o rest w2
        (entry :: rs, w3, tr1 ++ tr2, t)
      else
        ([entry], w2, tr1, Term.exited 1)

/-- `MultiEngineRunner.process_folders_parallel`: every folder is submitted
to the pool and exactly one result is collected per future; an exception from
`future.result()` is caught and recorded as a failure entry carrying the
message, with the raw folder path and a 0.0 duration. The thread pool is
modelled by a deterministic linearization of the submitted units (the claims
checked about parallel mode — outcome multiplicity and counts — hold under
any interleaving). -/
def process_folders_parallel (cfg : Config) (o : Oracle) :
    List Path → World → List ResultEntry × World × List Effect
  | [], w => ([], w, [])
  | folder :: rest, w =>
    match process_folder cfg o w folder with
    | (Except.ok (success, folder_name, duration), w1, tr1) =>
      let (entry, w2) := mkEntry o w1 folder_name success duration
      let (rs, w3, tr2) := process_folders_parallel cfg o rest w2
      (entry :: rs, w3, tr1 ++ tr2)
    | (Except.error msg, w1, tr1) =>
      let (ts, w2) := getTime o w1
      let entry : ResultEntry :=
        { folder := renderPath folder, success := false, duration := 0,
          timestamp := ts, error := some msg }
      let (rs, w3, tr2) := process_folders_parallel cfg o rest w2
      (entry :: rs, w3, tr1 ++ tr2)

/-- `MultiEngineRunner.save_results`: build the summary dictionary and write
it to `<output_dir>/processing_results.json`. -/
def save_results (cfg : Config) (o : Oracle) (w : World) (results : List ResultEntry) :
    Report × World × List Effect :=
  let results_file := cfg.output_dir ++ ["processing_results.json"]
  let (ts, w1) := getTime o w
  let r : Report :=
    { total_folders := cfg.folders.length,
      successful := (results.filter (fun e => e.success)).length,
      failed := (results.filter (fun e => !e.success)).length,
      total_duration := (results.map (fun e => e.duration)).sum,
      cfg_parallel := cfg.parallel,
      cfg_docker := cfg.use_docker,
      cfg_dry_run := cfg.dry_run,
      cfg_continue_on_error := cfg.continue_on_error,
      cfg_docker_image := if cfg.use_docker then some cfg.docker_image else none,
      results := results,
      timestamp := ts }
  (r, { w1 with fs := w1.fs.writeFile results_file }, [Effect.saveReport results_file r])

/-- `MultiEngineRunner.validate_folders`: every folder must exist and be a
directory. -/
def validate_folders (cfg : Config) (fs : FS) : Bool :=
  cfg.folders.all (fun folder => fs.pathExists folder && fs.isDir folder)

/-- The aggregate observable outcome of a run of the orchestrator. -/
structure RunOutput where
  results : List ResultEntry
  world : World
  trace : List Effect
  term : Term
  report : Option Report
deriving Repr, DecidableEq

/-- `MultiEngineRunner.run`: validate the folders (exit 1 on failure), pick
the execution mode, then save the results and print the summary. A
`sys.exit` or an uncaught exception raised while processing skips the report
step. -/
def runnerRun (cfg : Config) (o : Oracle) (w : World) : RunOutput :=
  if validate_folders cfg w.fs then
    if cfg.parallel then
      let (rs, w1, tr) := process_folders_parallel cfg o cfg.folders w
      let (rep, w2, tr2) := save_results cfg o w1 rs
      { results := rs, world := w2, trace := tr ++ tr2, term := Term.normal, report := some rep }
    else
      match process_folders_sequential cfg o cfg.folders w with
      | (rs, w1, tr, Term.normal) =>
        let (rep, w2, tr2) := save_results cfg o w1 rs
        { results := rs, world := w2, trace := tr ++ tr2, term := Term.normal, report := some rep }
      | (rs, w1, tr, t) =>
        { results := rs, world := w1, trace := tr, term := t, report := none }
  else
    { results := [], world := w, trace := [], term := Term.exited 1, report := none }

/-- The immediate child directories of a path (`Path.iterdir` filtered by
`is_dir`), in the snapshot's enumeration order. -/
def FS.childDirs (fs : FS) (p : Path) : List Path :=
  fs.dirs.filter (fun q => q.length == p.length + 1 && List.isPrefixOf p q)

/-- `find_test_data_folders`: nothing for a missing directory, else the child
directories that validate. -/
def find_test_data_folders (fs : FS) (directory_path : Path) : List Path :=
  if fs.pathExists directory_path then
    (fs.childDirs directory_path).filter (fun item => is_valid_test_data_folder fs item)
  else []

/-- The path-resolution loop of `main` (lines 399-418): skip regular files
(silently), keep a directory that itself validates, otherwise scan it for
test-data folders (warning when none qualify), and warn on a path that does
not exist. Returns the resolved folders and the emitted warnings. -/
def resolve_paths (fs : FS) : List Path → List Path × List String
  | [] => ([], [])
  | p :: rest =>
    let (rf, rw) := resolve_paths fs rest
    if fs.isFile p then (rf, rw)
    else if fs.isDir p then
      if is_valid_test_data_folder fs p then (p :: rf, rw)
      else
        let found_folders := find_test_data_folders fs p
        if found_folders.isEmpty then
          (rf, ("No valid test_data folders found in " ++ renderPath p) :: rw)
        else (found_folders ++ rf, rw)
    else (rf, ("Path does not exist: " ++ renderPath p) :: rw)

/-- The parsed CLI arguments of `main`. -/
structure Args where
  paths : List Path
  parallel : Bool
  docker : Bool
  output_dir : Path
  dry_run : Bool
  continue_on_error : Bool
  docker_image : String
  engine_script : String
deriving Repr, DecidableEq

/-- The configuration `main` builds from the parsed arguments and the
resolved folder list. -/
def mainConfig (a : Args) (folders : List Path) : Config :=
  { parallel := a.parallel, use_docker := a.docker, output_dir := a.output_dir,
    dry_run := a.dry_run, continue_on_error := a.continue_on_error,
    docker_image := a.docker_image, engine_script := a.engine_script,
    folders := folders }

/-- The initial world of the runner: `MultiEngineRunner.__init__` creates the
output directory before anything runs. -/
def mainWorld (a : Args) (fs : FS) : World :=
  { fs := fs.mkdirP a.output_dir, nRun := 0, nCopy := 0, nTime := 0 }

/-- `main`: resolve the input paths, abort with exit 1 when no valid folders
were found, otherwise build the runner (whose `__init__` creates the output
directory) and run it. Returns the run outcome and the discovery warnings. -/
def mainRun (a : Args) (o : Oracle) (fs : FS) : RunOutput × List String :=
  let (all_folders, warns) := resolve_paths fs a.paths
  if all_folders.isEmpty then
    ({ results := [], world := { fs := fs, nRun := 0, nCopy := 0, nTime := 0 },
       trace := [], term := Term.exited 1, report := none }, warns)
  else
    let out := runnerRun (mainConfig a all_folders) o (mainWorld a fs)
    ({ out with trace := Effect.mkdirp a.output_dir :: out.trace }, warns)

/-- Whether one `subprocess.run(check=True)` call is treated as a success by
`process_folder` (a zero exit status; both `CalledProcessError` and any other
exception are caught and classified as failure). -/
def runSucceeded : RunRes → Bool
  | RunRes.exit code _ _ => code == 0
  | RunRes.raise _ => false

/- ### Concrete inputs used by witnesses and counterexamples -/

/-- An oracle whose engine invocations all fail with exit status 1, with no
copy faults, and an identity clock. -/
def oFail : Oracle :=
  { runRes := fun _ => RunRes.exit 1 "" "", copyRes := fun _ => none, clock := fun n => n }

/-- An oracle whose engine invocations all succeed, with no copy faults. -/
def oOk : Oracle :=
  { runRes := fun _ => RunRes.exit 0 "" "", copyRes := fun _ => none, clock := fun n => n }

/-- An oracle whose `shutil.copytree` calls raise `OSError("boom")`. -/
def oBoom : Oracle :=
  { runRes := fun _ => RunRes.exit 0 "" "", copyRes := fun _ => some "boom", clock := fun n => n }

/-- Baseline configuration: sequential, local backend, fail-fast, output to
`results`, operating on the plain folders `data/x` and `data/y`. -/
def cfgBase : Config :=
  { parallel := false, use_docker := false, output_dir := ["results"], dry_run := false,
    continue_on_error := false, docker_image := "kswami235/addbio",
    engine_script := "engine/src/engine.py", folders := [["data", "x"], ["data", "y"]] }

/-- A filesystem with two plain work-unit folders `data/x` and `data/y`. -/
def fsBase : FS :=
  { dirs := [[], ["data"], ["data", "x"], ["data", "y"]], files := [] }

/-- Baseline initial world. -/
def wBase : World := { fs := fsBase, nRun := 0, nCopy := 0, nTime := 0 }

/-- The baseline configuration with `--dry-run` set. -/
def cfgDry : Config := { cfgBase with dry_run := true }

/-- A filesystem with a valid `_original` work unit `d/y_original`. -/
def fsOrig : FS :=
  { dirs := [[], ["d"], ["d", "y_original"], ["d", "y_original", "trials"]],
    files := [["d", "y_original", "_subject.json"]] }

/-- Initial world over `fsOrig`. -/
def wOrig : World := { fs := fsOrig, nRun := 0, nCopy := 0, nTime := 0 }

/-- Configuration whose single work unit is the `_original` folder. -/
def cfgOrig : Config := { cfgBase with folders := [["d", "y_original"]] }

/-- The `_original` configuration with `--continue-on-error` set. -/
def cfgOrigCont : Config := { cfgOrig with continue_on_error := true }

/-- The baseline configuration in parallel mode. -/
def cfgPar : Config := { cfgBase with parallel := true }

/-- The result of processing `data/x` with a failing engine, used to name
the intermediate world and trace in witnesses. -/
def pfW : Except String (Bool × String × Nat) × World × List Effect :=
  process_folder cfgBase oFail wBase ["data", "x"]

/-- A filesystem whose only entry besides the root is a regular file. -/
def fsFile : FS := { dirs := [[]], files := [["f.txt"]] }

/-- CLI arguments selecting the `_original` unit, sequential mode with
`--continue-on-error`. -/
def argsOrig : Args :=
  { paths := [["d", "y_original"]], parallel := false, docker := false,
    output_dir := ["results"], dry_run := false, continue_on_error := true,
    docker_image := "kswami235/addbio", engine_script := "engine/src/engine.py" }

/-- The `_original` CLI arguments in parallel mode. -/
def argsOrigPar : Args := { argsOrig with parallel := true, continue_on_error := false }

/-- The report produced by a concrete parallel run with one failing unit
(extracted from the run's outcome). -/
def repPar : Report :=
  ((runnerRun cfgPar oFail wBase).report).getD
    ⟨0, 0, 0, 0, false, false, false, false, none, [], 0⟩

/- ### Helper lemmas -/

theorem mem_ancestors_length {q p : Path} (h : q ∈ ancestors p) : q.length ≤ p.length := by
  rcases List.mem_map.mp h with ⟨k, _, rfl⟩
  simp [List.length_take]

theorem FS.isDir_iff_mem {fs : FS} {p : Path} : fs.isDir p = true ↔ p ∈ fs.dirs := by
  simp [FS.isDir, List.elem_eq_mem]

theorem FS.isFile_iff_mem {fs : FS} {p : Path} : fs.isFile p = true ↔ p ∈ fs.files := by
  simp [FS.isFile, List.elem_eq_mem]

theorem FS.pathExists_iff_mem {fs : FS} {p : Path} :
    fs.pathExists p = true ↔ p ∈ fs.dirs ∨ p ∈ fs.files := by
  simp [FS.pathExists, FS.isDir_iff_mem, FS.isFile_iff_mem]

theorem FS.isDir_mkdirP_of_isDir {fs : FS} {p q : Path} (h : fs.isDir p = true) :
    (fs.mkdirP q).isDir p = true := by
  refine FS.isDir_iff_mem.mpr ?_
  simp only [FS.mkdirP, List.mem_append]
  exact Or.inl (FS.isDir_iff_mem.mp h)

theorem FS.pathExists_mkdirP_of_pathExists {fs : FS} {p q : Path}
    (h : fs.pathExists p = true) : (fs.mkdirP q).pathExists p = true := by
  simp only [FS.pathExists, Bool.or_eq_true] at h ⊢
  rcases h with h | h
  · exact Or.inl (FS.isDir_mkdirP_of_isDir h)
  · exact Or.inr h

theorem FS.pathExists_mkdirP_longer {fs : FS} {p q : Path} (h : q.length < p.length) :
    (fs.mkdirP q).pathExists p = fs.pathExists p := by
  apply Bool.eq_iff_iff.mpr
  rw [FS.pathExists_iff_mem, FS.pathExists_iff_mem]
  simp only [FS.mkdirP, List.mem_append]
  constructor
  · rintro (⟨hd | hadd⟩ | hf)
    · exact Or.inl hd
    · rcases List.mem_filter.mp hadd with ⟨hanc, _⟩
      exact absurd (mem_ancestors_length hanc) (by omega)
    · exact Or.inr hf
  · rintro (hd | hf)
    · exact Or.inl (Or.inl hd)
    · exact Or.inr hf

theorem FS.pathExists_rmtree_of_not_under {fs : FS} {t p : Path}
    (h : List.isPrefixOf t p = false) :
    (fs.rmtree t).pathExists p = fs.pathExists p := by
  apply Bool.eq_iff_iff.mpr
  rw [FS.pathExists_iff_mem, FS.pathExists_iff_mem]
  simp only [FS.rmtree, List.mem_filter]
  constructor
  · rintro (⟨hd, _⟩ | ⟨hf, _⟩)
    · exact Or.inl hd
    · exact Or.inr hf
  · rintro (hd | hf)
    · exact Or.inl ⟨hd, by simp [h]⟩
    · exact Or.inr ⟨hf, by simp [h]⟩

theorem FS.pathExists_copytreeFS_dst (fs : FS) (src dst : Path) (h : dst ≠ []) :
    (fs.copytreeFS src dst).pathExists dst = true := by
  have hmem : dst ∈ ancestors dst := by
    rcases List.exists_cons_of_ne_nil h with ⟨a, t, rfl⟩
    refine List.mem_map.mpr ⟨(a :: t).length - 1, ?_, ?_⟩
    · simp [List.mem_range]
    · simp
  refine FS.pathExists_iff_mem.mpr (Or.inl ?_)
  simp only [FS.copytreeFS, List.mem_append]
  by_cases hc : dst ∈ fs.dirs
  · exact Or.inl (Or.inl hc)
  · refine Or.inl (Or.inr (List.mem_filter.mpr ⟨hmem, ?_⟩))
    simp only [Bool.not_eq_true']
    exact (Bool.not_eq_true _).mp (fun hcc => hc (FS.isDir_iff_mem.mp hcc))

theorem length_filter_add_length_filter_not {α : Type} (l : List α) (f : α → Bool) :
    (l.filter f).length + (l.filter (fun a => !f a)).length = l.length := by
  induction l with
  | nil => rfl
  | cons a t ih =>
    by_cases h : f a = true <;> simp [List.filter_cons, h, ← ih] <;> omega

theorem runEngine_eq (cfg : Config) (o : Oracle) (w : World) (tr : List Effect)
    (folder_name : String) (working : Path) :
    runEngine cfg o w tr folder_name working =
      (Except.ok (runSucceeded (o.runRes w.nRun), folder_name,
          o.clock (w.nTime + 1) - o.clock w.nTime),
        { w with nRun := w.nRun + 1, nTime := w.nTime + 1 + 1 },
        tr ++ [Effect.runCmd cfg.use_docker cfg.docker_image cfg.engine_script working]) := by
  rcases hr : o.runRes w.nRun with ⟨code, out, err⟩ | msg <;>
    simp [runEngine, getTime, runSucceeded, hr]

theorem length_process_folders_parallel (cfg : Config) (o : Oracle) :
    ∀ (fl : List Path) (w : World),
      ((process_folders_parallel cfg o fl w).1).length = fl.length := by
  intro fl
  induction fl with
  | nil => intro w; rfl
  | cons f rest ih =>
    intro w
    simp only [process_folders_parallel]
    rcases hpf : process_folder cfg o w f with ⟨res, w1, tr1⟩
    cases res with
    | ok v =>
      rcases v with ⟨s, n, d⟩
      simp [mkEntry, getTime, ih]
    | error msg => simp [getTime, ih]

theorem length_process_folders_sequential_normal (cfg : Config) (o : Oracle) :
    ∀ (fl : List Path) (w : World),
      (process_folders_sequential cfg o fl w).2.2.2 = Term.normal →
      ((process_folders_sequential cfg o fl w).1).length = fl.length := by
  intro fl
  induction fl with
  | nil => intro w _; rfl
  | cons f rest ih =>
    intro w
    simp only [process_folders_sequential]
    rcases hpf : process_folder cfg o w f with ⟨res, w1, tr1⟩
    cases res with
    | ok v =>
      rcases v with ⟨s, n, d⟩
      simp only [mkEntry, getTime]
      by_cases hs : (s || cfg.continue_on_error) = true
      · simp only [hs, if_true]
        intro ht
        simp only [List.length_cons]
        rw [ih _ (by exact ht)]
      · simp only [hs, if_false]
        intro ht
        exact absurd ht (by simp)
    | error msg =>
      intro ht
      exact absurd ht (by simp)

theorem process_folders_sequential_term (cfg : Config) (o : Oracle) :
    ∀ (fl : List Path) (w : World),
      (process_folders_sequential cfg o fl w).2.2.2 = Term.normal ∨
      ((process_folders_sequential cfg o fl w).2.2.2 = Term.exited 1 ∧
        cfg.continue_on_error = false) ∨
      ∃ m, (process_folders_sequential cfg o fl w).2.2.2 = Term.crashed m := by
  intro fl
  induction fl with
  | nil => intro w; exact Or.inl rfl
  | cons f rest ih =>
    intro w
    simp only [process_folders_sequential]
    rcases hpf : process_folder cfg o w f with ⟨res, w1, tr1⟩
    cases res with
    | ok v =>
      rcases v with ⟨s, n, d⟩
      simp only [mkEntry, getTime]
      by_cases hs : (s || cfg.continue_on_error) = true
      · simp only [hs, if_true]
        exact ih _
      · simp only [hs, if_false]
        right; left
        refine ⟨rfl, ?_⟩
        simp only [Bool.or_eq_true, not_or, Bool.not_eq_true] at hs
        exact hs.2
    | error msg => exact Or.inr (Or.inr ⟨msg, rfl⟩)

theorem mem_childDirs {fs : FS} {p q : Path} (h : q ∈ fs.childDirs p) : q ∈ fs.dirs :=
  (List.mem_filter.mp h).1

theorem resolve_paths_isDir (fs : FS) :
    ∀ (ps : List Path) (p : Path), p ∈ (resolve_paths fs ps).1 → fs.isDir p = true := by
  intro ps
  induction ps with
  | nil => intro p h; exact absurd h (by simp [resolve_paths])
  | cons q rest ih =>
    intro p
    simp only [resolve_paths]
    by_cases hf : fs.isFile q = true
    · simp only [hf, if_true]; exact ih p
    · simp only [hf, if_false]
      by_cases hd : fs.isDir q = true
      · simp only [hd, if_true]
        by_cases hv : is_valid_test_data_folder fs q = true
        · simp only [hv, if_true]
          intro hmem
          rcases List.mem_cons.mp hmem with rfl | hmem
          · exact hd
          · exact ih p hmem
        · simp only [hv, if_false]
          by_cases he : (find_test_data_folders fs q).isEmpty = true
          · simp only [he, if_true]; exact ih p
          · simp only [he, if_false]
            intro hmem
            rcases List.mem_append.mp hmem with hmem | hmem
            · simp only [find_test_data_folders] at hmem
              by_cases hex : fs.pathExists q = true
              · rw [if_pos hex] at hmem
                exact FS.isDir_iff_mem.mpr (mem_childDirs (List.mem_filter.mp hmem).1)
              · rw [if_neg hex] at hmem
                exact absurd hmem (by simp)
            · exact ih p hmem
      · simp only [hd, if_false]; exact ih p

theorem validate_after_resolve (fs : FS) (outd : Path) (ps : List Path) (cfg : Config)
    (hf : cfg.folders = (resolve_paths fs ps).1) :
    validate_folders cfg (fs.mkdirP outd) = true := by
  simp only [validate_folders, List.all_eq_true]
  intro folder hmem
  have hd : fs.isDir folder = true := resolve_paths_isDir fs ps folder (hf ▸ hmem)
  have hd2 : (fs.mkdirP outd).isDir folder = true := FS.isDir_mkdirP_of_isDir hd
  simp [FS.pathExists, hd2]

theorem cleanName_ne {s : String} (h : endsOriginal s = true) : cleanName s ≠ s := by
  intro he
  have hsuf : "_original".data <:+ s.data := by
    simpa [endsOriginal, List.isSuffixOf_iff_suffix] using h
  have h9 : 9 ≤ s.data.length := by
    have := List.IsSuffix.length_le hsuf
    simpa using this
  have hlen : (cleanName s).data.length = s.data.length - 9 := by
    simp [cleanName, List.length_take]
  rw [he] at hlen
  omega

theorem stagedPath_ne {cfg : Config} {p : Path} (h : endsOriginal (basename p) = true) :
    stagedPath cfg p ≠ p := by
  intro he
  have hb : basename (stagedPath cfg p) = cleanName (basename p) := by
    have hsplit : stagedPath cfg p =
        (cfg.output_dir ++ [basename p]) ++ [cleanName (basename p)] := by
      simp [stagedPath]
    rw [hsplit]
    simp [basename, List.getLastD_concat]
  rw [he] at hb
  exact cleanName_ne h hb.symm

theorem pjoin_subject (p : Path) : pjoin p "_subject.json" = p ++ ["_subject.json"] := rfl

theorem pjoin_osim (p : Path) : pjoin p "unscaled_generic.osim" = p ++ ["unscaled_generic.osim"] := rfl

theorem pjoin_trials (p : Path) : pjoin p "trials/" = p ++ ["trials"] := rfl

theorem pathExists_child_false {fs : FS} {p : Path} {s : String}
    (hwf : fs.WFb = true) (h : fs.isDir p = false) : fs.pathExists (p ++ [s]) = false := by
  cases hb : fs.pathExists (p ++ [s]) with
  | false => rfl
  | true =>
    exfalso
    have hmem : p ++ [s] ∈ fs.dirs ++ fs.files := by
      rcases FS.pathExists_iff_mem.mp hb with hm | hm
      · exact List.mem_append.mpr (Or.inl hm)
      · exact List.mem_append.mpr (Or.inr hm)
    have hall := List.all_eq_true.mp hwf _ hmem
    have hne : (p ++ [s]).isEmpty = false := by simp
    rw [hne] at hall
    simp only [Bool.false_or] at hall
    have hpar : fs.dirs.contains (p ++ [s]).dropLast = true := hall
    rw [List.dropLast_concat] at hpar
    rw [show fs.dirs.contains p = fs.isDir p from rfl] at hpar
    exact absurd hpar (by simp [h])

theorem process_folder_staged_eq (cfg : Config) (o : Oracle) (w : World) (p : Path)
    (hd : cfg.dry_run = false) (ho : endsOriginal (basename p) = true)
    (hc : o.copyRes w.nCopy = none) (he : w.fs.pathExists p = true)
    (hnp : List.isPrefixOf (stagedPath cfg p) p = false) :
    process_folder cfg o w p =
      (Except.ok (runSucceeded (o.runRes w.nRun), basename p,
          o.clock (w.nTime + 1) - o.clock w.nTime),
       { fs := (if w.fs.pathExists (stagedPath cfg p) = true
                then (w.fs.mkdirP (cfg.output_dir ++ [basename p])).rmtree (stagedPath cfg p)
                else w.fs.mkdirP (cfg.output_dir ++ [basename p])).copytreeFS p (stagedPath cfg p),
         nRun := w.nRun + 1, nCopy := w.nCopy + 1, nTime := w.nTime + 1 + 1 },
       [Effect.mkdirp (cfg.output_dir ++ [basename p])]
         ++ (if w.fs.pathExists (stagedPath cfg p) = true
             then [Effect.rmtreeE (stagedPath cfg p)] else [])
         ++ [Effect.copytreeE p (stagedPath cfg p),
             Effect.runCmd cfg.use_docker cfg.docker_image cfg.engine_script (stagedPath cfg p)]) := by
  have hw : cfg.output_dir ++ [basename p] ++ [cleanName (basename p)] = stagedPath cfg p := by
    simp [stagedPath]
  have hlen : (cfg.output_dir ++ [basename p]).length < (stagedPath cfg p).length := by
    simp [stagedPath]
  have hmk : (w.fs.mkdirP (cfg.output_dir ++ [basename p])).pathExists (stagedPath cfg p)
      = w.fs.pathExists (stagedPath cfg p) := FS.pathExists_mkdirP_longer hlen
  simp only [process_folder, ho, hd, Bool.false_eq_true, if_false, if_true, hw, hmk]
  by_cases hex : w.fs.pathExists (stagedPath cfg p) = true
  · simp only [hex, if_true, if_pos rfl]
    have hsrc : ((w.fs.mkdirP (cfg.output_dir ++ [basename p])).rmtree
        (stagedPath cfg p)).pathExists p = true := by
      rw [FS.pathExists_rmtree_of_not_under hnp]
      exact FS.pathExists_mkdirP_of_pathExists he
    simp only [hc, hsrc, if_pos rfl, runEngine_eq]
    simp
  · simp only [if_neg hex]
    have hsrc : (w.fs.mkdirP (cfg.output_dir ++ [basename p])).pathExists p = true :=
      FS.pathExists_mkdirP_of_pathExists he
    simp only [hc, hsrc, if_pos rfl, runEngine_eq]
    simp

theorem process_folder_plain_eq (cfg : Config) (o : Oracle) (w : World) (p : Path)
    (hd : cfg.dry_run = false) (ho : endsOriginal (basename p) = false) :
    process_folder cfg o w p =
      (Except.ok (runSucceeded (o.runRes w.nRun), basename p,
          o.clock (w.nTime + 1) - o.clock w.nTime),
       { fs := w.fs.mkdirP (cfg.output_dir ++ [basename p]),
         nRun := w.nRun + 1, nCopy := w.nCopy, nTime := w.nTime + 1 + 1 },
       [Effect.mkdirp (cfg.output_dir ++ [basename p]),
        Effect.runCmd cfg.use_docker cfg.docker_image cfg.engine_script p]) := by
  simp [process_folder, ho, hd, runEngine_eq]

/- ### Claim theorems -/

/-- Claim C1: `is_valid_test_data_folder` returns true iff at least 2 of the
3 fixed indicators (`_subject.json`, `unscaled_generic.osim`, `trials/`)
exist under the given path, and for a non-existent or non-directory path (in
a well-formed filesystem snapshot) it returns false. -/
theorem C1_is_valid_iff (fs : FS) (p : Path) (hwf : fs.WFb = true) :
    (is_valid_test_data_folder fs p = true ↔
      2 ≤ List.countP (fun q => fs.pathExists q)
        [p ++ ["_subject.json"], p ++ ["unscaled_generic.osim"], p ++ ["trials"]]) ∧
    (fs.isDir p = false → is_valid_test_data_folder fs p = false) := by
  constructor
  · simp [is_valid_test_data_folder, indicators, List.countP_cons, pjoin_subject,
      pjoin_osim, pjoin_trials]
  · intro h
    have h1 := pathExists_child_false (s := "_subject.json") hwf h
    have h2 := pathExists_child_false (s := "unscaled_generic.osim") hwf h
    have h3 := pathExists_child_false (s := "trials") hwf h
    simp [is_valid_test_data_folder, indicators, List.countP_cons, pjoin_subject,
      pjoin_osim, pjoin_trials, h1, h2, h3]

/-- Witness for C1 at a concrete filesystem: the hypotheses hold and the
conclusion evaluates on `fsOrig`. -/
theorem C1_is_valid_iff_witness :
    fsOrig.WFb = true ∧
    ((is_valid_test_data_folder fsOrig ["d", "y_original"] = true ↔
      2 ≤ List.countP (fun q => fsOrig.pathExists q)
        [["d", "y_original"] ++ ["_subject.json"],
         ["d", "y_original"] ++ ["unscaled_generic.osim"],
         ["d", "y_original"] ++ ["trials"]]) ∧
    (fsOrig.isDir ["d", "y_original"] = false →
      is_valid_test_data_folder fsOrig ["d", "y_original"] = false)) :=
  ⟨by decide, C1_is_valid_iff fsOrig ["d", "y_original"] (by decide)⟩

/-- Counterexample to claim C2 as stated: with `dryRun = true` the executor
still mutates the filesystem — it creates the per-unit output directory
(`results/x` here), which did not exist before the call. -/
theorem C2_counterexample :
    (process_folder cfgDry oOk wBase ["data", "x"]).2.1.fs.pathExists ["results", "x"] = true ∧
    wBase.fs.pathExists ["results", "x"] = false := by
  exact ⟨by decide, by decide⟩

/-- Claim C2 (amended): with `dryRun = true` the executor invokes no external
process and performs no staging copy or removal, and returns an immediate
success outcome with duration exactly 0; its only filesystem effect is
creating the per-unit output directory (`mkdir` with `parents=True,
exist_ok=True`). -/
theorem C2_dry_run (cfg : Config) (o : Oracle) (w : World) (p : Path)
    (h : cfg.dry_run = true) :
    process_folder cfg o w p =
      (Except.ok (true, basename p, 0),
       { w with fs := w.fs.mkdirP (cfg.output_dir ++ [basename p]) },
       [Effect.mkdirp (cfg.output_dir ++ [basename p])]) := by
  by_cases ho : endsOriginal (basename p) = true <;>
    simp [process_folder, ho, h]

/-- Witness for C2 (amended) at a concrete input. -/
theorem C2_dry_run_witness :
    process_folder cfgDry oOk wBase ["data", "x"] =
      (Except.ok (true, "x", 0),
       { wBase with fs := wBase.fs.mkdirP ["results", "x"] },
       [Effect.mkdirp ["results", "x"]]) :=
  C2_dry_run cfgDry oOk wBase ["data", "x"] rfl

/-- Claim C4: in a real (non-dry) run, a unit named `X_original` is staged:
the whole subtree is copied to `<outputDir>/X_original/X` (removing exactly
any previously existing staged copy at that location first), the external
command is invoked against the staged path — which is never the original
path — and the staged location exists afterwards; a unit without the suffix
gets no copy and the command runs against the original path. -/
theorem C4_staging :
    (∀ (cfg : Config) (o : Oracle) (w : World) (p : Path),
      cfg.dry_run = false →
      endsOriginal (basename p) = true →
      o.copyRes w.nCopy = none →
      w.fs.pathExists p = true →
      List.isPrefixOf (stagedPath cfg p) p = false →
      (process_folder cfg o w p).2.2 =
        [Effect.mkdirp (cfg.output_dir ++ [basename p])]
          ++ (if w.fs.pathExists (stagedPath cfg p) = true
              then [Effect.rmtreeE (stagedPath cfg p)] else [])
          ++ [Effect.copytreeE p (stagedPath cfg p),
              Effect.runCmd cfg.use_docker cfg.docker_image cfg.engine_script (stagedPath cfg p)]
        ∧ stagedPath cfg p ≠ p
        ∧ (process_folder cfg o w p).2.1.fs.pathExists (stagedPath cfg p) = true) ∧
    (∀ (cfg : Config) (o : Oracle) (w : World) (p : Path),
      cfg.dry_run = false →
      endsOriginal (basename p) = false →
      (process_folder cfg o w p).2.2 =
        [Effect.mkdirp (cfg.output_dir ++ [basename p]),
         Effect.runCmd cfg.use_docker cfg.docker_image cfg.engine_script p]) := by
  constructor
  · intro cfg o w p hd ho hc he hnp
    refine ⟨?_, stagedPath_ne ho, ?_⟩
    · rw [process_folder_staged_eq cfg o w p hd ho hc he hnp]
    · rw [process_folder_staged_eq cfg o w p hd ho hc he hnp]
      exact FS.pathExists_copytreeFS_dst _ _ _ (by simp [stagedPath])
  · intro cfg o w p hd ho
    rw [process_folder_plain_eq cfg o w p hd ho]

/-- Witness for C4 at the concrete `_original` unit `d/y_original`. -/
theorem C4_staging_witness :
    ((process_folder cfgOrig oFail wOrig ["d", "y_original"]).2.2 =
      [Effect.mkdirp (cfgOrig.output_dir ++ [basename ["d", "y_original"]])]
        ++ (if wOrig.fs.pathExists (stagedPath cfgOrig ["d", "y_original"]) = true
            then [Effect.rmtreeE (stagedPath cfgOrig ["d", "y_original"])] else [])
        ++ [Effect.copytreeE ["d", "y_original"] (stagedPath cfgOrig ["d", "y_original"]),
            Effect.runCmd cfgOrig.use_docker cfgOrig.docker_image cfgOrig.engine_script
              (stagedPath cfgOrig ["d", "y_original"])])
      ∧ stagedPath cfgOrig ["d", "y_original"] ≠ ["d", "y_original"]
      ∧ (process_folder cfgOrig oFail wOrig ["d", "y_original"]).2.1.fs.pathExists
          (stagedPath cfgOrig ["d", "y_original"]) = true :=
  C4_staging.1 cfgOrig oFail wOrig ["d", "y_original"] rfl (by decide) rfl (by decide) (by decide)

/-- Claim C5: in sequential mode with fail-fast (continue-on-error unset),
when the first unit's outcome is a failure the orchestrator records exactly
that one outcome, terminates via `sys.exit(1)` (non-zero status), and never
attempts the remaining units (the trace is exactly the first unit's trace). -/
theorem C5_sequential_fail_fast (cfg : Config) (o : Oracle) (w : World) (A : Path)
    (rest : List Path) (n : String) (d : Nat) (w1 : World) (tr1 : List Effect)
    (hc : cfg.continue_on_error = false)
    (hA : process_folder cfg o w A = (Except.ok (false, n, d), w1, tr1)) :
    process_folders_sequential cfg o (A :: rest) w =
      ([{ folder := n, success := false, duration := d,
          timestamp := o.clock w1.nTime, error := none }],
       (getTime o w1).2, tr1, Term.exited 1) := by
  simp [process_folders_sequential, hA, mkEntry, getTime, hc]

/-- Witness for C5: a concrete run on `[data/x (fails), data/y]` stops after
the first unit with exactly one outcome and exit 1. -/
theorem C5_sequential_fail_fast_witness :
    process_folders_sequential cfgBase oFail [["data", "x"], ["data", "y"]] wBase =
      ([{ folder := "x", success := false, duration := 1,
          timestamp := oFail.clock pfW.2.1.nTime, error := none }],
       (getTime oFail pfW.2.1).2, pfW.2.2, Term.exited 1) :=
  C5_sequential_fail_fast cfgBase oFail wBase ["data", "x"] [["data", "y"]]
    "x" 1 pfW.2.1 pfW.2.2 rfl rfl

/-- Counterexample to claim C6 as stated: under the sequential fail-fast
abort the outcome list has one entry while two work units were resolved, so
the final outcome list length does not equal the resolved unit count. -/
theorem C6_counterexample :
    ((runnerRun cfgBase oFail wBase).results).length = 1 ∧
    cfgBase.folders.length = 2 := ⟨by decide, by decide⟩

/-- Claim C6 (amended): in parallel mode the outcome list length always
equals the work-unit count; in sequential mode this holds whenever the
sequential pass terminates normally (no fail-fast abort, no staging crash). -/
theorem C6_outcome_count :
    (∀ (cfg : Config) (o : Oracle) (fl : List Path) (w : World),
      ((process_folders_parallel cfg o fl w).1).length = fl.length) ∧
    (∀ (cfg : Config) (o : Oracle) (fl : List Path) (w : World),
      (process_folders_sequential cfg o fl w).2.2.2 = Term.normal →
      ((process_folders_sequential cfg o fl w).1).length = fl.length) :=
  ⟨fun cfg o fl w => length_process_folders_parallel cfg o fl w,
   fun cfg o fl w h => length_process_folders_sequential_normal cfg o fl w h⟩

/-- Witness for C6 (amended) on concrete two-unit runs. -/
theorem C6_outcome_count_witness :
    ((process_folders_parallel cfgBase oFail [["data", "x"], ["data", "y"]] wBase).1).length = 2 ∧
    ((process_folders_sequential cfgBase oOk [["data", "x"], ["data", "y"]] wBase).1).length = 2 :=
  ⟨C6_outcome_count.1 cfgBase oFail [["data", "x"], ["data", "y"]] wBase,
   C6_outcome_count.2 cfgBase oOk [["data", "x"], ["data", "y"]] wBase (by decide)⟩

/-- Counterexample to claim C7 as stated: a regular-file input path is
skipped, but NO warning is emitted — the discovery loop's file branch is a
bare `continue`. -/
theorem C7_counterexample :
    fsFile.isFile ["f.txt"] = true ∧
    (resolve_paths fsFile [["f.txt"]]).1 = [] ∧
    (resolve_paths fsFile [["f.txt"]]).2 = [] :=
  ⟨by decide, by decide, by decide⟩

/-- Claim C7 (amended): during discovery a regular-file input is skipped
silently (no warning, zero contributed work units) and processing continues
with the remaining inputs unchanged. -/
theorem C7_file_skipped (fs : FS) (p : Path) (rest : List Path)
    (h : fs.isFile p = true) :
    resolve_paths fs (p :: rest) = resolve_paths fs rest := by
  simp [resolve_paths, h]

/-- Witness for C7 (amended) at the concrete file input. -/
theorem C7_file_skipped_witness :
    resolve_paths fsFile [["f.txt"]] = resolve_paths fsFile [] :=
  C7_file_skipped fsFile ["f.txt"] [] rfl

theorem save_results_trace (cfg : Config) (o : Oracle) (w : World)
    (results : List ResultEntry) :
    (save_results cfg o w results).2.2 =
      [Effect.saveReport (cfg.output_dir ++ ["processing_results.json"])
        (save_results cfg o w results).1] := by
  simp [save_results, getTime]

theorem save_results_fields (cfg : Config) (o : Oracle) (w : World)
    (results : List ResultEntry) :
    (save_results cfg o w results).1.successful =
        (results.filter (fun e => e.success)).length ∧
    (save_results cfg o w results).1.failed =
        (results.filter (fun e => !e.success)).length ∧
    (save_results cfg o w results).1.total_folders = cfg.folders.length ∧
    (save_results cfg o w results).1.results = results := by
  simp [save_results, getTime]

theorem runnerRun_parallel_eq (cfg : Config) (o : Oracle) (w : World)
    (hv : validate_folders cfg w.fs = true) (hp : cfg.parallel = true) :
    (runnerRun cfg o w).term = Term.normal ∧
    (runnerRun cfg o w).results = (process_folders_parallel cfg o cfg.folders w).1 ∧
    (runnerRun cfg o w).report =
      some (save_results cfg o (process_folders_parallel cfg o cfg.folders w).2.1
        (process_folders_parallel cfg o cfg.folders w).1).1 ∧
    (runnerRun cfg o w).trace =
      (process_folders_parallel cfg o cfg.folders w).2.2 ++
      (save_results cfg o (process_folders_parallel cfg o cfg.folders w).2.1
        (process_folders_parallel cfg o cfg.folders w).1).2.2 := by
  simp only [runnerRun, hv, if_true, hp]
  rcases hP : process_folders_parallel cfg o cfg.folders w with ⟨rs, w1, tr⟩
  rcases hS : save_results cfg o w1 rs with ⟨rep, w2, tr2⟩
  simp [hP, hS]

theorem runnerRun_seq_eq (cfg : Config) (o : Oracle) (w : World)
    (hv : validate_folders cfg w.fs = true) (hp : cfg.parallel = false) :
    (runnerRun cfg o w).term = (process_folders_sequential cfg o cfg.folders w).2.2.2 ∧
    (runnerRun cfg o w).results = (process_folders_sequential cfg o cfg.folders w).1 ∧
    ((process_folders_sequential cfg o cfg.folders w).2.2.2 = Term.normal →
      (runnerRun cfg o w).report =
        some (save_results cfg o (process_folders_sequential cfg o cfg.folders w).2.1
          (process_folders_sequential cfg o cfg.folders w).1).1 ∧
      (runnerRun cfg o w).trace =
        (process_folders_sequential cfg o cfg.folders w).2.2.1 ++
        (save_results cfg o (process_folders_sequential cfg o cfg.folders w).2.1
          (process_folders_sequential cfg o cfg.folders w).1).2.2) ∧
    ((process_folders_sequential cfg o cfg.folders w).2.2.2 ≠ Term.normal →
      (runnerRun cfg o w).report = none) := by
  simp only [runnerRun, hv, if_true, hp, Bool.false_eq_true, if_false]
  rcases hS : process_folders_sequential cfg o cfg.folders w with ⟨rs, w1, tr, t⟩
  rcases hR : save_results cfg o w1 rs with ⟨rep, w2, tr2⟩
  cases t <;> simp [hS, hR]

theorem mainRun_empty_term (a : Args) (o : Oracle) (fs : FS)
    (h : (resolve_paths fs a.paths).1 = []) :
    (mainRun a o fs).1.term = Term.exited 1 := by
  rcases hr : resolve_paths fs a.paths with ⟨folders, warns⟩
  rw [hr] at h
  simp only at h
  simp [mainRun, hr, h]

theorem mainRun_nonempty_eq (a : Args) (o : Oracle) (fs : FS)
    (h : (resolve_paths fs a.paths).1 ≠ []) :
    (mainRun a o fs).1.term =
      (runnerRun (mainConfig a (resolve_paths fs a.paths).1) o (mainWorld a fs)).term ∧
    (mainRun a o fs).1.report =
      (runnerRun (mainConfig a (resolve_paths fs a.paths).1) o (mainWorld a fs)).report := by
  rcases hr : resolve_paths fs a.paths with ⟨folders, warns⟩
  rw [hr] at h
  simp only at h
  have hne : folders.isEmpty = false := by
    cases folders
    · simp at h
    · rfl
  simp [mainRun, hr, hne]

theorem validate_mainConfig (a : Args) (fs : FS) :
    validate_folders (mainConfig a (resolve_paths fs a.paths).1) (mainWorld a fs).fs = true :=
  validate_after_resolve fs a.output_dir a.paths _ rfl

/-- Counterexample to claim C8 as stated: a staging fault in a sequential
run (here with continue-on-error set, so fail-fast cannot trigger) crashes
the orchestrator and the report step is skipped — so the fail-fast abort is
not the only case in which the report is skipped. -/
theorem C8_counterexample :
    (runnerRun cfgOrigCont oBoom wOrig).report = none ∧
    (runnerRun cfgOrigCont oBoom wOrig).term = Term.crashed "boom" ∧
    cfgOrigCont.continue_on_error = true :=
  ⟨rfl, rfl, rfl⟩

/-- Claim C8 (amended): provided folder validation passes (always true for
units resolved by discovery), the report is persisted exactly when the run
terminates normally: parallel mode always persists it (whatever the mix of
failures), and whenever a report is produced the persistence effect is in
the trace; the report step is skipped exactly when the run terminates
abnormally — the sequential fail-fast `sys.exit(1)`, or a staging fault
crashing a sequential run. -/
theorem C8_report_persistence (cfg : Config) (o : Oracle) (w : World)
    (hv : validate_folders cfg w.fs = true) :
    (((runnerRun cfg o w).term = Term.normal) ↔
      ((runnerRun cfg o w).report).isSome = true) ∧
    (cfg.parallel = true → (runnerRun cfg o w).term = Term.normal) ∧
    (∀ r : Report, (runnerRun cfg o w).report = some r →
      Effect.saveReport (cfg.output_dir ++ ["processing_results.json"]) r
        ∈ (runnerRun cfg o w).trace) := by
  by_cases hp : cfg.parallel = true
  · obtain ⟨ht, hres, hrep, htr⟩ := runnerRun_parallel_eq cfg o w hv hp
    refine ⟨by simp [ht, hrep], fun _ => ht, ?_⟩
    intro r hr
    rw [hrep] at hr
    have he : (save_results cfg o (process_folders_parallel cfg o cfg.folders w).2.1
        (process_folders_parallel cfg o cfg.folders w).1).1 = r := Option.some.inj hr
    rw [htr, save_results_trace, he]
    exact List.mem_append.mpr (Or.inr (List.mem_singleton.mpr rfl))
  · have hp' : cfg.parallel = false := by
      cases hpc : cfg.parallel
      · rfl
      · exact absurd hpc hp
    obtain ⟨ht, hres, hsome, hnone⟩ := runnerRun_seq_eq cfg o w hv hp'
    by_cases hn : (process_folders_sequential cfg o cfg.folders w).2.2.2 = Term.normal
    · obtain ⟨hrep, htr⟩ := hsome hn
      refine ⟨by simp [ht, hn, hrep], fun hpp => absurd hpp hp, ?_⟩
      intro r hr
      rw [hrep] at hr
      have he : (save_results cfg o (process_folders_sequential cfg o cfg.folders w).2.1
          (process_folders_sequential cfg o cfg.folders w).1).1 = r := Option.some.inj hr
      rw [htr, save_results_trace, he]
      exact List.mem_append.mpr (Or.inr (List.mem_singleton.mpr rfl))
    · have hrep := hnone hn
      refine ⟨by rw [ht, hrep]; simp [hn], fun hpp => absurd hpp hp, ?_⟩
      intro r hr
      rw [hrep] at hr
      exact absurd hr (by simp)

/-- Witness for C8 (amended) at a concrete parallel run with a failing unit. -/
theorem C8_report_persistence_witness :
    (((runnerRun cfgPar oFail wBase).term = Term.normal) ↔
      ((runnerRun cfgPar oFail wBase).report).isSome = true) ∧
    (cfgPar.parallel = true → (runnerRun cfgPar oFail wBase).term = Term.normal) ∧
    (∀ r : Report, (runnerRun cfgPar oFail wBase).report = some r →
      Effect.saveReport (cfgPar.output_dir ++ ["processing_results.json"]) r
        ∈ (runnerRun cfgPar oFail wBase).trace) :=
  C8_report_persistence cfgPar oFail wBase (by decide)

/-- Counterexample to claim C9 as stated: a staging fault crashing a
sequential run yields a non-zero exit status even though neither of the
claim's two non-zero cases applies — work units were resolved and fail-fast
is disabled (continue-on-error set). -/
theorem C9_counterexample :
    processExit (mainRun argsOrig oBoom fsOrig).1.term = 1 ∧
    argsOrig.continue_on_error = true ∧
    (resolve_paths fsOrig argsOrig.paths).1 ≠ [] :=
  ⟨rfl, rfl, by decide⟩

/-- Claim C9 (amended): the exit status is non-zero when no valid work units
are resolved (exit 1 before execution), when the sequential fail-fast abort
triggers (exit 1, only with continue-on-error unset and sequential mode),
or when a staging fault crashes a sequential run; it is zero otherwise — in
particular parallel runs always exit 0 regardless of unit failures, and
sequential continue-on-error runs exit 0 when no staging fault occurs. -/
theorem C9_exit_status :
    (∀ (a : Args) (o : Oracle) (fs : FS),
      (resolve_paths fs a.paths).1 = [] →
      (mainRun a o fs).1.term = Term.exited 1) ∧
    (∀ (a : Args) (o : Oracle) (fs : FS),
      (resolve_paths fs a.paths).1 ≠ [] → a.parallel = true →
      processExit (mainRun a o fs).1.term = 0) ∧
    (∀ (a : Args) (o : Oracle) (fs : FS) (c : Nat),
      (mainRun a o fs).1.term = Term.exited c →
      c = 1 ∧ ((resolve_paths fs a.paths).1 = [] ∨
        (a.parallel = false ∧ a.continue_on_error = false))) ∧
    (∀ (a : Args) (o : Oracle) (fs : FS) (msg : String),
      (mainRun a o fs).1.term = Term.crashed msg →
      processExit (mainRun a o fs).1.term = 1 ∧ a.parallel = false) ∧
    (∀ (a : Args) (o : Oracle) (fs : FS),
      (resolve_paths fs a.paths).1 ≠ [] → a.parallel = false →
      a.continue_on_error = true →
      (∀ m, (mainRun a o fs).1.term ≠ Term.crashed m) →
      processExit (mainRun a o fs).1.term = 0) := by
  refine ⟨?_, ?_, ?_, ?_, ?_⟩
  · intro a o fs h
    exact mainRun_empty_term a o fs h
  · intro a o fs h hp
    obtain ⟨ht, _⟩ := mainRun_nonempty_eq a o fs h
    obtain ⟨htn, _, _, _⟩ :=
      runnerRun_parallel_eq (mainConfig a (resolve_paths fs a.paths).1) o
        (mainWorld a fs) (validate_mainConfig a fs) hp
    rw [ht, htn]
    rfl
  · intro a o fs c hterm
    by_cases hres : (resolve_paths fs a.paths).1 = []
    · have h1 := mainRun_empty_term a o fs hres
      rw [hterm] at h1
      have hc : c = 1 := by
        injection h1 with hcc
      exact ⟨hc, Or.inl hres⟩
    · obtain ⟨ht, _⟩ := mainRun_nonempty_eq a o fs hres
      rw [hterm] at ht
      by_cases hp : a.parallel = true
      · obtain ⟨htn, _, _, _⟩ :=
          runnerRun_parallel_eq (mainConfig a (resolve_paths fs a.paths).1) o
            (mainWorld a fs) (validate_mainConfig a fs) hp
        rw [htn] at ht
        exact absurd ht.symm (by simp)
      · have hp' : a.parallel = false := by
          cases hpc : a.parallel
          · rfl
          · exact absurd hpc hp
        obtain ⟨htseq, _, _, _⟩ :=
          runnerRun_seq_eq (mainConfig a (resolve_paths fs a.paths).1) o
            (mainWorld a fs) (validate_mainConfig a fs) hp'
        rw [htseq] at ht
        rcases process_folders_sequential_term (mainConfig a (resolve_paths fs a.paths).1) o
            (mainConfig a (resolve_paths fs a.paths).1).folders (mainWorld a fs)
          with hn | ⟨hx, hcont⟩ | ⟨m, hcr⟩
        · rw [hn] at ht
          exact absurd ht (by simp)
        · rw [hx] at ht
          have hc : c = 1 := by
            injection ht with hcc
          exact ⟨hc, Or.inr ⟨hp', hcont⟩⟩
        · rw [hcr] at ht
          exact absurd ht (by simp)
  · intro a o fs msg hterm
    refine ⟨by rw [hterm]; rfl, ?_⟩
    by_cases hres : (resolve_paths fs a.paths).1 = []
    · have h1 := mainRun_empty_term a o fs hres
      rw [hterm] at h1
      exact absurd h1 (by simp)
    · obtain ⟨ht, _⟩ := mainRun_nonempty_eq a o fs hres
      rw [hterm] at ht
      by_cases hp : a.parallel = true
      · obtain ⟨htn, _, _, _⟩ :=
          runnerRun_parallel_eq (mainConfig a (resolve_paths fs a.paths).1) o
            (mainWorld a fs) (validate_mainConfig a fs) hp
        rw [htn] at ht
        exact absurd ht.symm (by simp)
      · cases hpc : a.parallel
        · rfl
        · exact absurd hpc hp
  · intro a o fs h hp hc hnc
    obtain ⟨ht, _⟩ := mainRun_nonempty_eq a o fs h
    obtain ⟨htseq, _, _, _⟩ :=
      runnerRun_seq_eq (mainConfig a (resolve_paths fs a.paths).1) o
        (mainWorld a fs) (validate_mainConfig a fs) hp
    rcases process_folders_sequential_term (mainConfig a (resolve_paths fs a.paths).1) o
        (mainConfig a (resolve_paths fs a.paths).1).folders (mainWorld a fs)
      with hn | ⟨hx, hcont⟩ | ⟨m, hcr⟩
    · rw [ht, htseq, hn]
      rfl
    · have : (mainConfig a (resolve_paths fs a.paths).1).continue_on_error = true := hc
      rw [this] at hcont
      cases hcont
    · exact absurd (ht.trans (htseq.trans hcr)) (hnc m)

/-- Witness for C9 (amended): a concrete parallel run whose only unit fails
still exits with status 0. -/
theorem C9_exit_status_witness :
    processExit (mainRun argsOrigPar oFail fsOrig).1.term = 0 :=
  C9_exit_status.2.1 argsOrigPar oFail fsOrig (by decide) rfl

/-- Claim C10: whenever a report is persisted, its successful and failed
counts sum exactly to its total folder count, which equals the number of
recorded results and the number of resolved folders. -/
theorem C10_report_counts (cfg : Config) (o : Oracle) (w : World) (r : Report)
    (h : (runnerRun cfg o w).report = some r) :
    r.successful + r.failed = r.total_folders ∧
    r.successful + r.failed = r.results.length ∧
    r.total_folders = cfg.folders.length ∧
    r.results.length = cfg.folders.length := by
  by_cases hv : validate_folders cfg w.fs = true
  · by_cases hp : cfg.parallel = true
    · obtain ⟨_, _, hrep, _⟩ := runnerRun_parallel_eq cfg o w hv hp
      rw [hrep] at h
      have he := Option.some.inj h
      obtain ⟨hs, hf, htf, hres⟩ := save_results_fields cfg o
        (process_folders_parallel cfg o cfg.folders w).2.1
        (process_folders_parallel cfg o cfg.folders w).1
      rw [he] at hs hf htf hres
      have hlen := length_process_folders_parallel cfg o cfg.folders w
      have hsum := length_filter_add_length_filter_not
        (process_folders_parallel cfg o cfg.folders w).1 (fun e => e.success)
      refine ⟨?_, ?_, ?_, ?_⟩ <;> simp only [hs, hf, htf, hres] <;> omega
    · have hp' : cfg.parallel = false := by
        cases hpc : cfg.parallel
        · rfl
        · exact absurd hpc hp
      obtain ⟨_, _, hsome, hnone⟩ := runnerRun_seq_eq cfg o w hv hp'
      by_cases hn : (process_folders_sequential cfg o cfg.folders w).2.2.2 = Term.normal
      · obtain ⟨hrep, _⟩ := hsome hn
        rw [hrep] at h
        have he := Option.some.inj h
        obtain ⟨hs, hf, htf, hres⟩ := save_results_fields cfg o
          (process_folders_sequential cfg o cfg.folders w).2.1
          (process_folders_sequential cfg o cfg.folders w).1
        rw [he] at hs hf htf hres
        have hlen := length_process_folders_sequential_normal cfg o cfg.folders w hn
        have hsum := length_filter_add_length_filter_not
          (process_folders_sequential cfg o cfg.folders w).1 (fun e => e.success)
        refine ⟨?_, ?_, ?_, ?_⟩ <;> simp only [hs, hf, htf, hres] <;> omega
      · have hrep := hnone hn
        rw [hrep] at h
        exact absurd h (by simp)
  · rw [runnerRun, if_neg hv] at h
    exact absurd h (by simp)

/-- Witness for C10 at the concrete parallel run's persisted report. -/
theorem C10_report_counts_witness :
    repPar.successful + repPar.failed = repPar.total_folders ∧
    repPar.successful + repPar.failed = repPar.results.length ∧
    repPar.total_folders = cfgPar.folders.length ∧
    repPar.results.length = cfgPar.folders.length :=
  C10_report_counts cfgPar oFail wBase repPar rfl

end RunEngineMulti
